import Mathlib

/-!
Verification of the lighthouse-game bot in `main.py`.

The decision engine (`BotGame.new_turn_action`), the visited deque
(`collections.deque(maxlen=3)`), the Python dict built from the turn's
lighthouse list, Python's `min` with a key function, and the join retry
loop (`BotComs.wait_to_join_game`) are embedded as executable Lean
definitions, and the specification's testable properties are proved
about them.
-/

/-- A grid position: the Python tuple `(x, y)` of protobuf integers. -/
abbrev Pos := Int × Int

/-- One lighthouse of the turn observation: its position and owner
(protobuf `Position` and `Owner` fields; `Owner` is a plain integer). -/
structure Lighthouse where
  Position : Pos
  Owner : Int
deriving DecidableEq, Repr

/-- The per-turn observation `game_pb2.NewTurn`, restricted to the fields
the decision engine reads: own position, energy, visible lighthouses.
(The `Connections` field is only read by commented-out code.) -/
structure NewTurn where
  Position : Pos
  Energy : Int
  Lighthouses : List Lighthouse
deriving DecidableEq, Repr

/-- The four protobuf action kinds. -/
inductive ActionType where
  | ATTACK
  | MOVE
  | PASS
  | CONNECT
deriving DecidableEq, Repr

/-- `game_pb2.NewAction`: action kind, destination, energy payload
(proto3 default `0` when the Python code does not set `Energy`). -/
structure NewAction where
  Action : ActionType
  Destination : Pos
  Energy : Int
deriving DecidableEq, Repr

/-- The mutable bot state of class `BotGame` (the unused `initial_state`
field aside): `player_num`, the turn history `turn_states` (each entry a
`BotGameTurn(turn, action)` pair), the `visited` deque's contents (oldest
first), the current `target`, and the counter `countT`. -/
structure BotGame where
  player_num : Option Int
  turn_states : List (NewTurn × NewAction)
  visited : List Pos
  target : Option Pos
  countT : Nat
deriving DecidableEq, Repr

/-- `BotGame.__init__(player_num)`: empty histories, no target, `countT = 1`. -/
def BotGame.init (player_num : Option Int) : BotGame :=
  { player_num := player_num
    turn_states := []
    visited := []
    target := none
    countT := 1 }

/-- `BotGame.manhattan_distance(a, b) = abs(a[0]-b[0]) + abs(a[1]-b[1])`. -/
def manhattan_distance (a b : Pos) : Nat :=
  (a.1 - b.1).natAbs + (a.2 - b.2).natAbs

/-- `deque(maxlen=3).append`: append on the right, dropping from the left
whatever exceeds three entries. -/
def dequeAppend (v : List Pos) (p : Pos) : List Pos :=
  let w := v ++ [p]
  w.drop (w.length - 3)

/-- Lookup in the Python dict
`{(lh.Position.X, lh.Position.Y): lh for lh in turn.Lighthouses}`:
a later list entry with the same position overwrites an earlier one, so
`get` returns the last matching lighthouse. -/
def dictGet (ls : List Lighthouse) (p : Pos) : Option Lighthouse :=
  ls.foldl (fun acc lh => if lh.Position = p then some lh else acc) none

/-- The iteration order of that dict's keys: insertion order, where a
re-inserted key keeps its first position. -/
def lhKeys (ls : List Lighthouse) : List Pos :=
  ls.foldl (fun acc lh => if lh.Position ∈ acc then acc else acc ++ [lh.Position]) []

/-- The list comprehension
`[pos for pos in lighthouses.keys() if pos not in self.visited]`. -/
def unvisitedKeys (ls : List Lighthouse) (visited : List Pos) : List Pos :=
  (lhKeys ls).filter (fun p => decide (p ∉ visited))

/-- Python's `min(l, key=f)` for nonempty `l`: the first element attaining
the minimal key (a later element replaces the current best only when its
key is strictly smaller); `none` on the empty list. -/
def minBy (f : Pos → Nat) : List Pos → Option Pos
  | [] => none
  | p :: rest =>
    match minBy f rest with
    | none => some p
    | some q => if f q < f p then some q else some p

/-- The retarget test `not self.target or self.target in self.visited`
(a set tuple is always truthy, so `not self.target` means `target is None`). -/
def needsRetarget (target : Option Pos) (visited : List Pos) : Bool :=
  match target with
  | none => true
  | some t => decide (t ∈ visited)

/-- Lines 74-81 of `main.py`: keep the current target unless it is unset or
already visited, in which case pick the unvisited lighthouse position of
minimal Manhattan distance (or clear the target when none remains). -/
def selectTarget (target : Option Pos) (visited : List Pos) (my_pos : Pos)
    (ls : List Lighthouse) : Option Pos :=
  if needsRetarget target visited then
    minBy (fun pos => manhattan_distance my_pos pos) (unvisitedKeys ls visited)
  else target

/-- Lines 84-96 of `main.py`: a unit step toward the target on each axis,
or `PASS` in place when there is no target. -/
def moveAction (cx cy : Int) (target : Option Pos) : NewAction :=
  match target with
  | some t =>
    let dx : Int := if t.1 = cx then 0 else if t.1 > cx then 1 else -1
    let dy : Int := if t.2 = cy then 0 else if t.2 > cy then 1 else -1
    { Action := ActionType.MOVE, Destination := (cx + dx, cy + dy), Energy := 0 }
  | none => { Action := ActionType.PASS, Destination := (cx, cy), Energy := 0 }

/-- The shared tail of `new_turn_action` (lines 73-100): target
(re)selection, movement or pass, turn-record append, counter increment. -/
def finishTurn (st : BotGame) (turn : NewTurn) : NewAction × BotGame :=
  let cx := turn.Position.1
  let cy := turn.Position.2
  let target := selectTarget st.target st.visited (cx, cy) turn.Lighthouses
  let action := moveAction cx cy target
  (action,
    { st with
      target := target
      turn_states := st.turn_states ++ [(turn, action)]
      countT := st.countT + 1 })

/-- `BotGame.new_turn_action`: attack a foreign lighthouse underfoot
(recording the position as visited and returning early); otherwise mark an
owned lighthouse underfoot as visited and fall through to targeting and
movement. Returns the emitted action together with the updated state. -/
def new_turn_action (st : BotGame) (turn : NewTurn) : NewAction × BotGame :=
  let cx := turn.Position.1
  let cy := turn.Position.2
  let my_pos : Pos := turn.Position
  match dictGet turn.Lighthouses my_pos with
  | some lh_here =>
    if some lh_here.Owner ≠ st.player_num then
      let action : NewAction :=
        { Action := ActionType.ATTACK, Destination := (cx, cy), Energy := turn.Energy }
      (action,
        { st with
          visited := dequeAppend st.visited my_pos
          turn_states := st.turn_states ++ [(turn, action)]
          countT := st.countT + 1 })
    else
      finishTurn { st with visited := dequeAppend st.visited my_pos } turn
  | none => finishTurn st turn

/-- The `visited` deque as it stands after this turn's marking step: the
current position is appended exactly when a lighthouse sits there (either
branch of lines 59-71 appends it before any targeting happens). -/
def visitedAfterMark (st : BotGame) (turn : NewTurn) : List Pos :=
  match dictGet turn.Lighthouses turn.Position with
  | some _ => dequeAppend st.visited turn.Position
  | none => st.visited

/-- Running `new_turn_action` over a whole sequence of turn observations. -/
def runTurns (st : BotGame) : List NewTurn → BotGame
  | [] => st
  | t :: ts => runTurns (new_turn_action st t).2 ts

/-- Outcome of one `client.Join` attempt: a player id, or a raised `RpcError`. -/
inductive JoinOutcome where
  | ok (playerId : Int)
  | rpcError
deriving DecidableEq, Repr

/-- State of the `wait_to_join_game` loop: the stored `bot_id`, whether the
loop has exited via `break`, and the list of `time.sleep` delays (in
seconds) performed so far. -/
structure JoinLoopState where
  bot_id : Option Int
  joined : Bool
  sleeps : List Nat
deriving DecidableEq, Repr

/-- One iteration of the `while True` loop of `wait_to_join_game`
(lines 117-127): after the `break` nothing changes; a successful `Join`
stores the returned id and breaks; an `RpcError` sleeps one second and
retries. -/
def joinAttemptStep (s : JoinLoopState) (o : JoinOutcome) : JoinLoopState :=
  if s.joined then s
  else
    match o with
    | JoinOutcome.ok pid => { s with bot_id := some pid, joined := true }
    | JoinOutcome.rpcError => { s with sleeps := s.sleeps ++ [1] }

/-- The join loop after `n` iterations, driven by the sequence of attempt
outcomes; the loop starts with `bot_id = None`. -/
def runJoin (outcomes : Nat → JoinOutcome) : Nat → JoinLoopState
  | 0 => { bot_id := none, joined := false, sleeps := [] }
  | n + 1 => joinAttemptStep (runJoin outcomes n) (outcomes n)

/-! ### Reduction lemmas for the decision engine -/

lemma moveAction_kind (cx cy : Int) (target : Option Pos) :
    (moveAction cx cy target).Action = ActionType.MOVE ∨
      (moveAction cx cy target).Action = ActionType.PASS := by
  cases target with
  | none => exact Or.inr rfl
  | some t => exact Or.inl rfl

lemma finishTurn_kind (st : BotGame) (turn : NewTurn) :
    (finishTurn st turn).1.Action = ActionType.MOVE ∨
      (finishTurn st turn).1.Action = ActionType.PASS :=
  moveAction_kind turn.Position.1 turn.Position.2
    (selectTarget st.target st.visited turn.Position turn.Lighthouses)

lemma new_turn_action_no_attack (st : BotGame) (turn : NewTurn)
    (hNoAtk : ∀ lh, dictGet turn.Lighthouses turn.Position = some lh →
      some lh.Owner = st.player_num) :
    new_turn_action st turn
      = finishTurn { st with visited := visitedAfterMark st turn } turn := by
  cases hd : dictGet turn.Lighthouses turn.Position with
  | none => simp [new_turn_action, visitedAfterMark, hd]
  | some lh => simp [new_turn_action, visitedAfterMark, hd, hNoAtk lh hd]

/-- C6: the action emitted by `new_turn_action` is always one of `ATTACK`,
`MOVE`, `PASS`; the `CONNECT` branch is commented out in the source, so
`CONNECT` is never emitted. -/
theorem action_never_connect (st : BotGame) (turn : NewTurn) :
    (new_turn_action st turn).1.Action = ActionType.ATTACK ∨
      (new_turn_action st turn).1.Action = ActionType.MOVE ∨
      (new_turn_action st turn).1.Action = ActionType.PASS := by
  cases hd : dictGet turn.Lighthouses turn.Position with
  | none =>
    rcases finishTurn_kind st turn with h | h <;> simp [new_turn_action, hd, h]
  | some lh =>
    by_cases ho : some lh.Owner = st.player_num
    · rcases finishTurn_kind { st with visited := dequeAppend st.visited turn.Position } turn
        with h | h <;> simp [new_turn_action, hd, ho, h]
    · simp [new_turn_action, hd, ho]

/-- C7: every call to `new_turn_action` appends exactly the one record
`(turn, action)` to `turn_states` and increments `countT` by one, and the
initial state has `countT = 1` (hence `countT` strictly increases turn by
turn). -/
theorem every_turn_appends_record_and_increments :
    (∀ pn : Option Int, (BotGame.init pn).countT = 1) ∧
    ∀ (st : BotGame) (turn : NewTurn),
      (new_turn_action st turn).2.turn_states
          = st.turn_states ++ [(turn, (new_turn_action st turn).1)] ∧
      (new_turn_action st turn).2.countT = st.countT + 1 := by
  refine ⟨fun _ => rfl, fun st turn => ?_⟩
  cases hd : dictGet turn.Lighthouses turn.Position with
  | none => simp [new_turn_action, hd, finishTurn]
  | some lh =>
    by_cases ho : some lh.Owner = st.player_num <;>
      simp [new_turn_action, hd, ho, finishTurn]

/-- C1: `new_turn_action` emits `ATTACK` exactly when the lighthouse lookup
at the bot's own position succeeds with an owner different from the bot's
`player_num`; the attack targets the current position with the turn's full
energy. -/
theorem attack_iff_foreign_lighthouse_underfoot (st : BotGame) (turn : NewTurn) :
    ((new_turn_action st turn).1.Action = ActionType.ATTACK ↔
      ∃ lh, dictGet turn.Lighthouses turn.Position = some lh ∧
        some lh.Owner ≠ st.player_num) ∧
    ((new_turn_action st turn).1.Action = ActionType.ATTACK →
      (new_turn_action st turn).1.Destination = turn.Position ∧
      (new_turn_action st turn).1.Energy = turn.Energy) := by
  cases hd : dictGet turn.Lighthouses turn.Position with
  | none =>
    rcases finishTurn_kind st turn with h | h <;> simp [new_turn_action, hd, h]
  | some lh =>
    by_cases ho : some lh.Owner = st.player_num
    · rcases finishTurn_kind { st with visited := dequeAppend st.visited turn.Position } turn
        with h | h <;> simp [new_turn_action, hd, ho, h]
    · simp [new_turn_action, hd, ho]

def C1st : BotGame := BotGame.init (some 1)

def C1turn : NewTurn :=
  { Position := (5, 5), Energy := 10
    Lighthouses := [{ Position := (5, 5), Owner := 2 }, { Position := (8, 5), Owner := 0 }] }

/-- Witness for C1: the spec's concrete attack scenario, bot at (5,5) with a
foreign lighthouse underfoot. -/
theorem attack_iff_foreign_lighthouse_underfoot_witness :
    (new_turn_action C1st C1turn).1.Destination = C1turn.Position ∧
      (new_turn_action C1st C1turn).1.Energy = C1turn.Energy :=
  (attack_iff_foreign_lighthouse_underfoot C1st C1turn).2 (by decide)

/-- C10: when the attack branch fires, `new_turn_action` returns early: the
stored target and player id are untouched, `visited` gets the current
position appended, and only the turn record and counter change besides. -/
theorem attack_branch_preserves_target (st : BotGame) (turn : NewTurn) (lh : Lighthouse)
    (hd : dictGet turn.Lighthouses turn.Position = some lh)
    (ho : some lh.Owner ≠ st.player_num) :
    (new_turn_action st turn).1.Action = ActionType.ATTACK ∧
    (new_turn_action st turn).2.target = st.target ∧
    (new_turn_action st turn).2.player_num = st.player_num ∧
    (new_turn_action st turn).2.visited = dequeAppend st.visited turn.Position ∧
    (new_turn_action st turn).2.turn_states
        = st.turn_states ++ [(turn, (new_turn_action st turn).1)] ∧
    (new_turn_action st turn).2.countT = st.countT + 1 := by
  simp [new_turn_action, hd, ho]

def C10st : BotGame :=
  { player_num := some 1, turn_states := [], visited := [], target := some (9, 9), countT := 1 }

def C10turn : NewTurn :=
  { Position := (5, 5), Energy := 10, Lighthouses := [{ Position := (5, 5), Owner := 2 }] }

/-- Witness for C10: an attack turn taken while a travel target (9,9) is
held; the target survives the attack. -/
theorem attack_branch_preserves_target_witness :
    (new_turn_action C10st C10turn).1.Action = ActionType.ATTACK ∧
    (new_turn_action C10st C10turn).2.target = C10st.target ∧
    (new_turn_action C10st C10turn).2.player_num = C10st.player_num ∧
    (new_turn_action C10st C10turn).2.visited = dequeAppend C10st.visited C10turn.Position ∧
    (new_turn_action C10st C10turn).2.turn_states
        = C10st.turn_states ++ [(C10turn, (new_turn_action C10st C10turn).1)] ∧
    (new_turn_action C10st C10turn).2.countT = C10st.countT + 1 :=
  attack_branch_preserves_target C10st C10turn
    { Position := (5, 5), Owner := 2 } (by decide) (by decide)

/-! ### The visited deque -/

lemma dequeAppend_length_le (v : List Pos) (p : Pos) :
    (dequeAppend v p).length ≤ 3 := by
  simp [dequeAppend]
  omega

lemma step_visited (st : BotGame) (turn : NewTurn) :
    (new_turn_action st turn).2.visited = st.visited ∨
      (new_turn_action st turn).2.visited = dequeAppend st.visited turn.Position := by
  cases hd : dictGet turn.Lighthouses turn.Position with
  | none => left; simp [new_turn_action, hd, finishTurn]
  | some lh =>
    by_cases ho : some lh.Owner = st.player_num <;> right <;>
      simp [new_turn_action, hd, ho, finishTurn]

lemma runTurns_visited_le (ts : List NewTurn) :
    ∀ st : BotGame, st.visited.length ≤ 3 → (runTurns st ts).visited.length ≤ 3 := by
  induction ts with
  | nil => intro st h; exact h
  | cons t ts ih =>
    intro st h
    rw [runTurns]
    apply ih
    rcases step_visited st t with h1 | h1
    · rw [h1]; exact h
    · rw [h1]; exact dequeAppend_length_le st.visited t.Position

/-- C3: over any sequence of turns from the initial state the visited
history holds at most 3 entries, and appending to a full deque drops the
oldest entry, which is then absent unless it also occurs later or is the
new entry (FIFO eviction). -/
theorem visited_bounded_and_fifo :
    (∀ (pn : Option Int) (ts : List NewTurn),
      (runTurns (BotGame.init pn) ts).visited.length ≤ 3) ∧
    (∀ (v : List Pos) (a p : Pos), v.length = 3 → v.head? = some a →
      dequeAppend v p = v.tail ++ [p] ∧
      (a ∉ dequeAppend v p ↔ a ∉ v.tail ∧ a ≠ p)) := by
  constructor
  · intro pn ts
    exact runTurns_visited_le ts (BotGame.init pn) (by simp [BotGame.init])
  · intro v a p hlen hhead
    obtain ⟨x1, x2, x3, rfl⟩ := List.length_eq_three.mp hlen
    have hx : x1 = a := by simpa using hhead
    subst hx
    refine ⟨rfl, ?_⟩
    simp [dequeAppend, not_or]
    tauto

/-- Witness for C3: the empty run keeps the bound, and appending (3,3) to a
full deque [(0,0),(1,1),(2,2)] drops (0,0). -/
theorem visited_bounded_and_fifo_witness :
    (runTurns (BotGame.init (some 1)) []).visited.length ≤ 3 ∧
    (dequeAppend ([(0, 0), (1, 1), (2, 2)] : List Pos) (3, 3)
        = ([(0, 0), (1, 1), (2, 2)] : List Pos).tail ++ [(3, 3)] ∧
      (((0, 0) : Pos) ∉ dequeAppend ([(0, 0), (1, 1), (2, 2)] : List Pos) (3, 3) ↔
        ((0, 0) : Pos) ∉ ([(0, 0), (1, 1), (2, 2)] : List Pos).tail ∧
          ((0, 0) : Pos) ≠ (3, 3))) :=
  ⟨visited_bounded_and_fifo.1 (some 1) [],
   visited_bounded_and_fifo.2 [(0, 0), (1, 1), (2, 2)] (0, 0) (3, 3)
     (by decide) (by decide)⟩

/-! ### Movement as a sign step -/

lemma step_eq_sign (t c : Int) :
    (if t = c then (0 : Int) else if t > c then 1 else -1) = Int.sign (t - c) := by
  rcases lt_trichotomy t c with h | h | h
  · rw [if_neg (ne_of_lt h), if_neg (not_lt.mpr h.le),
      Int.sign_eq_neg_one_of_neg (by omega)]
  · subst h
    simp
  · rw [if_neg (ne_of_gt h), if_pos h, Int.sign_eq_one_of_pos (by omega)]

lemma sign_abs_le_one (z : Int) : |Int.sign z| ≤ 1 := by
  rcases lt_trichotomy z 0 with h | h | h
  · rw [Int.sign_eq_neg_one_of_neg h]; decide
  · rw [h, Int.sign_zero]; decide
  · rw [Int.sign_eq_one_of_pos h]; decide

lemma moveAction_some (cx cy : Int) (t : Pos) :
    moveAction cx cy (some t)
      = { Action := ActionType.MOVE
          Destination := (cx + Int.sign (t.1 - cx), cy + Int.sign (t.2 - cy))
          Energy := 0 } := by
  simp only [moveAction]
  rw [← step_eq_sign t.1 cx, ← step_eq_sign t.2 cy]

lemma finishTurn_move (st : BotGame) (turn : NewTurn)
    (hM : (finishTurn st turn).1.Action = ActionType.MOVE) :
    ∃ t, (finishTurn st turn).2.target = some t ∧
      (finishTurn st turn).1.Destination
        = (turn.Position.1 + Int.sign (t.1 - turn.Position.1),
           turn.Position.2 + Int.sign (t.2 - turn.Position.2)) := by
  cases hT : selectTarget st.target st.visited turn.Position turn.Lighthouses with
  | none =>
    exfalso
    have h1 : (finishTurn st turn).1 = moveAction turn.Position.1 turn.Position.2 none := by
      simp [finishTurn, hT]
    rw [h1] at hM
    simp [moveAction] at hM
  | some t =>
    have h1 : (finishTurn st turn).1
        = moveAction turn.Position.1 turn.Position.2 (some t) := by
      simp [finishTurn, hT]
    refine ⟨t, by simp [finishTurn, hT], ?_⟩
    rw [h1, moveAction_some]

/-- C4: when `new_turn_action` emits `MOVE`, the destination is exactly one
sign-step from the current position toward the stored target on each axis,
so each coordinate changes by at most one. -/
theorem move_step_is_unit_sign_step (st : BotGame) (turn : NewTurn)
    (hM : (new_turn_action st turn).1.Action = ActionType.MOVE) :
    ∃ t, (new_turn_action st turn).2.target = some t ∧
      (new_turn_action st turn).1.Destination
        = (turn.Position.1 + Int.sign (t.1 - turn.Position.1),
           turn.Position.2 + Int.sign (t.2 - turn.Position.2)) ∧
      |(new_turn_action st turn).1.Destination.1 - turn.Position.1| ≤ 1 ∧
      |(new_turn_action st turn).1.Destination.2 - turn.Position.2| ≤ 1 := by
  cases hd : dictGet turn.Lighthouses turn.Position with
  | none =>
    have he : new_turn_action st turn = finishTurn st turn := by
      simp [new_turn_action, hd]
    rw [he] at hM ⊢
    obtain ⟨t, h1, h2⟩ := finishTurn_move st turn hM
    refine ⟨t, h1, h2, ?_, ?_⟩
    · rw [h2]; simpa using sign_abs_le_one (t.1 - turn.Position.1)
    · rw [h2]; simpa using sign_abs_le_one (t.2 - turn.Position.2)
  | some lh =>
    by_cases ho : some lh.Owner = st.player_num
    · have he : new_turn_action st turn
          = finishTurn { st with visited := dequeAppend st.visited turn.Position } turn := by
        simp [new_turn_action, hd, ho]
      rw [he] at hM ⊢
      obtain ⟨t, h1, h2⟩ := finishTurn_move _ turn hM
      refine ⟨t, h1, h2, ?_, ?_⟩
      · rw [h2]; simpa using sign_abs_le_one (t.1 - turn.Position.1)
      · rw [h2]; simpa using sign_abs_le_one (t.2 - turn.Position.2)
    · have hA : (new_turn_action st turn).1.Action = ActionType.ATTACK := by
        simp [new_turn_action, hd, ho]
      rw [hA] at hM
      exact absurd hM (by decide)

def C4st : BotGame :=
  { player_num := some 1, turn_states := [], visited := [], target := some (3, 0), countT := 1 }

def C4turn : NewTurn := { Position := (0, 0), Energy := 0, Lighthouses := [] }

/-- Witness for C4: bot at (0,0) holding target (3,0) moves one cell. -/
theorem move_step_is_unit_sign_step_witness :
    ∃ t, (new_turn_action C4st C4turn).2.target = some t ∧
      (new_turn_action C4st C4turn).1.Destination
        = (C4turn.Position.1 + Int.sign (t.1 - C4turn.Position.1),
           C4turn.Position.2 + Int.sign (t.2 - C4turn.Position.2)) ∧
      |(new_turn_action C4st C4turn).1.Destination.1 - C4turn.Position.1| ≤ 1 ∧
      |(new_turn_action C4st C4turn).1.Destination.2 - C4turn.Position.2| ≤ 1 :=
  move_step_is_unit_sign_step C4st C4turn (by decide)

/-- C9: a held target equal to the current position (with no lighthouse at
that position and the position not in the visited history, so reselection
does not fire) yields a `MOVE` in place, not a `PASS`. -/
theorem zero_distance_target_moves_in_place (st : BotGame) (turn : NewTurn)
    (ht : st.target = some turn.Position)
    (hd : dictGet turn.Lighthouses turn.Position = none)
    (hv : turn.Position ∉ st.visited) :
    (new_turn_action st turn).1
        = { Action := ActionType.MOVE, Destination := turn.Position, Energy := 0 } ∧
    (new_turn_action st turn).2.target = some turn.Position := by
  have hR : needsRetarget (some turn.Position) st.visited = false := by
    simp [needsRetarget, hv]
  have he : new_turn_action st turn = finishTurn st turn := by
    simp [new_turn_action, hd]
  rw [he]
  constructor
  · have h1 : (finishTurn st turn).1
        = moveAction turn.Position.1 turn.Position.2 (some turn.Position) := by
      simp [finishTurn, selectTarget, ht, hR]
    rw [h1, moveAction_some]
    simp
  · simp [finishTurn, selectTarget, ht, hR]

def C9st : BotGame :=
  { player_num := some 1, turn_states := [], visited := [], target := some (2, 2), countT := 1 }

def C9turn : NewTurn := { Position := (2, 2), Energy := 4, Lighthouses := [] }

/-- Witness for C9: target (2,2) while standing at (2,2) gives a (0,0) step. -/
theorem zero_distance_target_moves_in_place_witness :
    (new_turn_action C9st C9turn).1
        = { Action := ActionType.MOVE, Destination := C9turn.Position, Energy := 0 } ∧
    (new_turn_action C9st C9turn).2.target = some C9turn.Position :=
  zero_distance_target_moves_in_place C9st C9turn (by decide) (by decide) (by decide)

/-! ### Characterising the minimum choice and the key set -/

lemma minBy_spec (f : Pos → Nat) :
    ∀ l : List Pos, l ≠ [] →
      ∃ t l₁ l₂, minBy f l = some t ∧ l = l₁ ++ t :: l₂ ∧
        (∀ p ∈ l₁, f t < f p) ∧ (∀ p ∈ l, f t ≤ f p) := by
  intro l
  induction l with
  | nil => intro h; exact absurd rfl h
  | cons p rest ih =>
    intro _
    cases rest with
    | nil => exact ⟨p, [], [], by simp [minBy], rfl, by simp, by simp⟩
    | cons q rs =>
      obtain ⟨t, l₁, l₂, hm, hsplit, hlt, hle⟩ := ih (by simp)
      by_cases hcmp : f t < f p
      · refine ⟨t, p :: l₁, l₂, ?_, ?_, ?_, ?_⟩
        · rw [minBy, hm]
          simp [hcmp]
        · simp [hsplit]
        · intro x hx
          rcases List.mem_cons.mp hx with rfl | hx'
          · exact hcmp
          · exact hlt x hx'
        · intro x hx
          rcases List.mem_cons.mp hx with rfl | hx'
          · exact le_of_lt hcmp
          · exact hle x hx'
      · refine ⟨p, [], q :: rs, ?_, rfl, by simp, ?_⟩
        · rw [minBy, hm]
          simp [hcmp]
        · intro x hx
          rcases List.mem_cons.mp hx with rfl | hx'
          · exact le_refl _
          · exact le_trans (not_lt.mp hcmp) (hle x hx')

lemma mem_lhKeys_aux (p : Pos) :
    ∀ (ls : List Lighthouse) (acc : List Pos),
      (p ∈ ls.foldl
          (fun acc lh => if lh.Position ∈ acc then acc else acc ++ [lh.Position]) acc ↔
        p ∈ acc ∨ ∃ lh ∈ ls, lh.Position = p) := by
  intro ls
  induction ls with
  | nil => intro acc; simp
  | cons lh rest ih =>
    intro acc
    simp only [List.foldl_cons]
    by_cases h : lh.Position ∈ acc
    · rw [if_pos h, ih]
      constructor
      · rintro (h1 | ⟨x, hx, hxp⟩)
        · exact Or.inl h1
        · exact Or.inr ⟨x, List.mem_cons_of_mem _ hx, hxp⟩
      · rintro (h1 | ⟨x, hx, hxp⟩)
        · exact Or.inl h1
        · rcases List.mem_cons.mp hx with rfl | hx'
          · exact Or.inl (hxp ▸ h)
          · exact Or.inr ⟨x, hx', hxp⟩
    · rw [if_neg h, ih]
      simp only [List.mem_append, List.mem_singleton]
      constructor
      · rintro ((h1 | h1) | ⟨x, hx, hxp⟩)
        · exact Or.inl h1
        · exact Or.inr ⟨lh, List.mem_cons_self _ _, h1.symm⟩
        · exact Or.inr ⟨x, List.mem_cons_of_mem _ hx, hxp⟩
      · rintro (h1 | ⟨x, hx, hxp⟩)
        · exact Or.inl (Or.inl h1)
        · rcases List.mem_cons.mp hx with rfl | hx'
          · exact Or.inl (Or.inr hxp.symm)
          · exact Or.inr ⟨x, hx', hxp⟩

lemma mem_lhKeys (ls : List Lighthouse) (p : Pos) :
    p ∈ lhKeys ls ↔ ∃ lh ∈ ls, lh.Position = p := by
  simpa using mem_lhKeys_aux p ls []

lemma mem_unvisitedKeys (ls : List Lighthouse) (v : List Pos) (p : Pos) :
    p ∈ unvisitedKeys ls v ↔ (∃ lh ∈ ls, lh.Position = p) ∧ p ∉ v := by
  rw [unvisitedKeys, List.mem_filter, mem_lhKeys]
  simp

/-- C2 (amended): on a turn where no foreign lighthouse sits at the bot's
position (so the attack branch does not return early), if the stored target
is unset or lies in the visited history as updated by this turn's marking
step, and some visible lighthouse position lies outside that updated
history, then the new target is the first-encountered minimum-Manhattan-
distance such position, in dict iteration order. -/
theorem retarget_picks_nearest_unvisited (st : BotGame) (turn : NewTurn)
    (hNoAtk : ∀ lh, dictGet turn.Lighthouses turn.Position = some lh →
      some lh.Owner = st.player_num)
    (hR : needsRetarget st.target (visitedAfterMark st turn) = true)
    (hU : unvisitedKeys turn.Lighthouses (visitedAfterMark st turn) ≠ []) :
    ∃ t, (new_turn_action st turn).2.target = some t ∧
      t ∈ unvisitedKeys turn.Lighthouses (visitedAfterMark st turn) ∧
      (∀ p ∈ unvisitedKeys turn.Lighthouses (visitedAfterMark st turn),
        manhattan_distance turn.Position t ≤ manhattan_distance turn.Position p) ∧
      (∃ l₁ l₂,
        unvisitedKeys turn.Lighthouses (visitedAfterMark st turn) = l₁ ++ t :: l₂ ∧
        ∀ p ∈ l₁,
          manhattan_distance turn.Position t < manhattan_distance turn.Position p) ∧
      ∀ p, p ∈ unvisitedKeys turn.Lighthouses (visitedAfterMark st turn) ↔
        (∃ lh ∈ turn.Lighthouses, lh.Position = p) ∧ p ∉ visitedAfterMark st turn := by
  rw [new_turn_action_no_attack st turn hNoAtk]
  obtain ⟨t, l₁, l₂, hm, hsplit, hlt, hle⟩ :=
    minBy_spec (fun pos => manhattan_distance turn.Position pos) _ hU
  refine ⟨t, ?_, ?_, hle, ⟨l₁, l₂, hsplit, hlt⟩, fun p => mem_unvisitedKeys _ _ p⟩
  · simp [finishTurn, selectTarget, hR, hm]
  · rw [hsplit]
    exact List.mem_append_right _ (List.mem_cons_self _ _)

def C2st : BotGame := BotGame.init (some 1)

def C2turn : NewTurn :=
  { Position := (0, 0), Energy := 5
    Lighthouses := [{ Position := (0, 0), Owner := 2 }, { Position := (1, 0), Owner := 0 }] }

/-- Counterexample to C2 as stated: the stored target is none and the
visible lighthouse (1,0) lies outside the (empty) visited history, yet
`new_turn_action` takes the attack branch and returns with the target still
none — no reselection happens. -/
theorem retarget_skipped_on_attack_branch :
    C2st.target = none ∧
    unvisitedKeys C2turn.Lighthouses C2st.visited ≠ [] ∧
    (new_turn_action C2st C2turn).1.Action = ActionType.ATTACK ∧
    (new_turn_action C2st C2turn).2.target = none := by decide

def C2Wst : BotGame := BotGame.init (some 1)

def C2Wturn : NewTurn :=
  { Position := (0, 0), Energy := 10
    Lighthouses := [{ Position := (3, 0), Owner := 0 }, { Position := (0, 4), Owner := 0 }] }

/-- Witness for the amended C2: the spec's reselection scenario at (0,0)
with lighthouses (3,0) and (0,4). -/
theorem retarget_picks_nearest_unvisited_witness :
    ∃ t, (new_turn_action C2Wst C2Wturn).2.target = some t ∧
      t ∈ unvisitedKeys C2Wturn.Lighthouses (visitedAfterMark C2Wst C2Wturn) ∧
      (∀ p ∈ unvisitedKeys C2Wturn.Lighthouses (visitedAfterMark C2Wst C2Wturn),
        manhattan_distance C2Wturn.Position t ≤ manhattan_distance C2Wturn.Position p) ∧
      (∃ l₁ l₂,
        unvisitedKeys C2Wturn.Lighthouses (visitedAfterMark C2Wst C2Wturn)
            = l₁ ++ t :: l₂ ∧
        ∀ p ∈ l₁,
          manhattan_distance C2Wturn.Position t < manhattan_distance C2Wturn.Position p) ∧
      ∀ p, p ∈ unvisitedKeys C2Wturn.Lighthouses (visitedAfterMark C2Wst C2Wturn) ↔
        (∃ lh ∈ C2Wturn.Lighthouses, lh.Position = p) ∧
          p ∉ visitedAfterMark C2Wst C2Wturn :=
  retarget_picks_nearest_unvisited C2Wst C2Wturn
    (fun lh h => by simp [C2Wturn, dictGet] at h) (by decide) (by decide)

/-- C5 (amended): on a turn with no foreign lighthouse at the bot's
position, where the stored target is unset or lies in the updated visited
history and every visible lighthouse position is in that history, the bot
emits `PASS` at its current position and the target is cleared. -/
theorem pass_when_all_visited (st : BotGame) (turn : NewTurn)
    (hNoAtk : ∀ lh, dictGet turn.Lighthouses turn.Position = some lh →
      some lh.Owner = st.player_num)
    (hR : needsRetarget st.target (visitedAfterMark st turn) = true)
    (hU : unvisitedKeys turn.Lighthouses (visitedAfterMark st turn) = []) :
    (new_turn_action st turn).1
        = { Action := ActionType.PASS, Destination := turn.Position, Energy := 0 } ∧
    (new_turn_action st turn).2.target = none := by
  rw [new_turn_action_no_attack st turn hNoAtk]
  constructor
  · simp [finishTurn, selectTarget, hR, hU, minBy, moveAction]
  · simp [finishTurn, selectTarget, hR, hU, minBy]

def C5st : BotGame :=
  { player_num := some 1, turn_states := [], visited := [], target := some (5, 5), countT := 1 }

def C5turn : NewTurn := { Position := (0, 0), Energy := 0, Lighthouses := [] }

/-- Counterexample to C5 as stated: with no lighthouse anywhere (so none
lies outside the visited history and none is contested underfoot) but a
held target (5,5) not in the history, the bot emits `MOVE` toward the
target, not `PASS`. -/
theorem move_despite_no_unvisited_lighthouse :
    C5turn.Lighthouses = [] ∧
    (new_turn_action C5st C5turn).1.Action = ActionType.MOVE ∧
    (new_turn_action C5st C5turn).1.Destination ≠ C5turn.Position := by decide

def C5Wst : BotGame :=
  { player_num := some 1, turn_states := [], visited := [(2, 2)]
    target := some (2, 2), countT := 1 }

def C5Wturn : NewTurn := { Position := (2, 2), Energy := 0, Lighthouses := [] }

/-- Witness for the amended C5: the spec's scenario at (2,2) with the target
(2,2) already visited and no unvisited lighthouse left. -/
theorem pass_when_all_visited_witness :
    (new_turn_action C5Wst C5Wturn).1
        = { Action := ActionType.PASS, Destination := C5Wturn.Position, Energy := 0 } ∧
    (new_turn_action C5Wst C5Wturn).2.target = none :=
  pass_when_all_visited C5Wst C5Wturn
    (fun lh h => by simp [C5Wturn, dictGet] at h) (by decide) (by decide)

/-! ### The join retry loop -/

lemma runJoin_all_fail (outcomes : Nat → JoinOutcome) :
    ∀ m, (∀ k, k < m → outcomes k = JoinOutcome.rpcError) →
      runJoin outcomes m
        = { bot_id := none, joined := false, sleeps := List.replicate m 1 } := by
  intro m
  induction m with
  | zero => intro _; rfl
  | succ m ih =>
    intro h
    rw [runJoin, ih (fun k hk => h k (Nat.lt_succ_of_lt hk)), h m (Nat.lt_succ_self m)]
    simp [joinAttemptStep, List.replicate_succ']

lemma runJoin_joined_stable (outcomes : Nat → JoinOutcome) (m : Nat)
    (h : (runJoin outcomes m).joined = true) :
    ∀ j, m ≤ j → runJoin outcomes j = runJoin outcomes m := by
  intro j hj
  induction j, hj using Nat.le_induction with
  | base => rfl
  | succ j hj ih =>
    rw [runJoin, ih]
    simp [joinAttemptStep, h]

/-- C8: while every attempt raises an RPC error the join loop stays alive,
holds no id, and has slept exactly one second per failed attempt, for any
number of failures; the first successful attempt stores the returned player
id, exits the loop, and the state never changes afterwards. -/
theorem join_retries_until_success (outcomes : Nat → JoinOutcome) (n : Nat) (pid : Int)
    (hfail : ∀ k, k < n → outcomes k = JoinOutcome.rpcError)
    (hok : outcomes n = JoinOutcome.ok pid) :
    (∀ m, m ≤ n → (runJoin outcomes m).joined = false ∧
      (runJoin outcomes m).bot_id = none ∧
      (runJoin outcomes m).sleeps = List.replicate m 1) ∧
    (runJoin outcomes (n + 1)).joined = true ∧
    (runJoin outcomes (n + 1)).bot_id = some pid ∧
    ∀ j, n + 1 ≤ j → runJoin outcomes j = runJoin outcomes (n + 1) := by
  have hrun : ∀ m, m ≤ n → runJoin outcomes m
      = { bot_id := none, joined := false, sleeps := List.replicate m 1 } :=
    fun m hm => runJoin_all_fail outcomes m (fun k hk => hfail k (lt_of_lt_of_le hk hm))
  have hn1 : runJoin outcomes (n + 1)
      = { bot_id := some pid, joined := true, sleeps := List.replicate n 1 } := by
    rw [runJoin, hrun n le_rfl, hok]
    simp [joinAttemptStep]
  refine ⟨fun m hm => by rw [hrun m hm]; exact ⟨rfl, rfl, rfl⟩, ?_, ?_, ?_⟩
  · rw [hn1]
  · rw [hn1]
  · exact runJoin_joined_stable outcomes (n + 1) (by rw [hn1])

def C8outcomes : Nat → JoinOutcome :=
  fun k => if k < 2 then JoinOutcome.rpcError else JoinOutcome.ok 7

/-- Witness for C8: two failed attempts then success with id 7; the id is
still in place two iterations later. -/
theorem join_retries_until_success_witness :
    (runJoin C8outcomes 2).joined = false ∧
    (runJoin C8outcomes 2).bot_id = none ∧
    (runJoin C8outcomes 2).sleeps = List.replicate 2 1 ∧
    (runJoin C8outcomes 3).joined = true ∧
    (runJoin C8outcomes 3).bot_id = some 7 ∧
    runJoin C8outcomes 5 = runJoin C8outcomes 3 := by
  have h := join_retries_until_success C8outcomes 2 7
    (fun k hk => by simp [C8outcomes, hk]) (by simp [C8outcomes])
  exact ⟨(h.1 2 le_rfl).1, (h.1 2 le_rfl).2.1, (h.1 2 le_rfl).2.2, h.2.1, h.2.2.1,
    h.2.2.2 5 (by omega)⟩
